import Mathlib

/-!
Shallow embedding of `src/neandertools/imagebuilder.py` (the imagebuilder
module of the neandertools repository), together with proofs of the
specification's claims about it.

Modelling choices:
* Pixel values are exact rationals (`ℚ`).  A sample of a pixel grid is an
  `Option ℚ`: `none` models a non-finite float (NaN or ±∞), `some q` a
  finite value.  A 2-D grid is modelled already flattened (`ravel`), since
  every operation of the source flattens before use.
* Exact rational arithmetic never overflows, so the `np.isfinite(rms)`
  guards of the source are vacuously true in the model; the `rms <= 0`
  halves of those guards are kept verbatim.
* `np.median` is: sort ascending, take the middle element (odd length) or
  the mean of the two middle elements (even length).
* `np.std` is the square root of the population variance.  Floating-point
  sqrt returns a rational approximation of the exact square root; the model
  uses a computable rational approximation `sqrtQ` with the same exactness
  and sign behaviour (`sqrtQ 0 = 0`, `sqrtQ q > 0` for `q > 0`, exact on
  perfect squares), which is all the control flow of the source observes.
* `np.percentile` with the default linear interpolation: position
  `q * (n-1) / 100` into the sorted pool, linearly interpolated.
* Python exceptions are modelled with `Except String`.  `np.concatenate`
  of an empty list of arrays raises `ValueError`, which the model's
  `normalize_cutouts` reproduces.
-/

namespace Neandertools

/-- A sample of a pixel grid: `none` models a non-finite float. -/
abbrev Sample := Option ℚ

/-- A pixel grid, flattened to one dimension as the source does. -/
abbrev PixelGrid := List Sample

/-- The constant `1.4826` converting MAD to a Gaussian-consistent rms. -/
def c14826 : ℚ := 14826 / 10000

/-- The epsilon `1e-12` used by the source for the division guard and the
display-range nudge. -/
def eps12 : ℚ := 1 / 1000000000000

/-- Model of `np.median`: sort, middle element, or mean of the two middle
elements for even length.  (numpy returns NaN on an empty array; the value
`0` here is never reached by the callers, which guard non-emptiness.) -/
def median (l : List ℚ) : ℚ :=
  let s := List.insertionSort (· ≤ ·) l
  let n := l.length
  if n = 0 then 0
  else if n % 2 = 1 then s.getD (n / 2) 0
  else (s.getD (n / 2 - 1) 0 + s.getD (n / 2) 0) / 2

/-- Mean of a list (`np.mean`). -/
def listMean (l : List ℚ) : ℚ := l.sum / (l.length : ℚ)

/-- Population variance of a list, the square of `np.std`. -/
def listVar (l : List ℚ) : ℚ :=
  ((l.map fun x => (x - listMean l) ^ 2).sum) / (l.length : ℚ)

/-- Computable rational approximation of the square root, standing in for
the floating-point sqrt inside `np.std`: zero on non-positive input,
strictly positive on positive input, exact on perfect squares. -/
def sqrtQ (q : ℚ) : ℚ :=
  if q ≤ 0 then 0 else (Nat.sqrt (q.num.toNat * q.den) : ℚ) / (q.den : ℚ)

/-- Model of `float(np.std(l))`. -/
def stdQ (l : List ℚ) : ℚ := sqrtQ (listVar l)

/-- One clipping step's kept set: the samples within `sigma * rms` of the
median, where `rms = 1.4826 * MAD` of the current working set
(`keep = np.abs(clipped - med) <= sigma * rms; clipped[keep]`). -/
def keepSet (sigma : ℚ) (c : List ℚ) : List ℚ :=
  let med := median c
  let mad := median (c.map fun x => |x - med|)
  let rms := c14826 * mad
  c.filter fun x => |x - med| ≤ sigma * rms

/-- The clipping loop of `sigma_clipped_stats` (lines 67-77 of the source):
up to `maxiters` iterations, each recomputing median/MAD/rms, breaking when
`rms ≤ 0`, when the kept mask keeps everything, or when it would keep
nothing; otherwise continuing with the kept subset. -/
def clipLoop (sigma : ℚ) : Nat → List ℚ → List ℚ
  | 0, c => c
  | n + 1, c =>
    let med := median c
    let mad := median (c.map fun x => |x - med|)
    let rms := c14826 * mad
    if rms ≤ 0 then c
    else
      let keep := keepSet sigma c
      if keep.length = c.length ∨ keep.length = 0 then c
      else clipLoop sigma n keep

/-- The final noise computation of `sigma_clipped_stats` (lines 79-86):
`rms = 1.4826 * MAD` of the converged working set, falling back to the
plain standard deviation when non-positive, and to `1.0` when that is
still non-positive. -/
def finalRms (clipped : List ℚ) : ℚ :=
  let bg := median clipped
  let mad := median (clipped.map fun x => |x - bg|)
  let rms := c14826 * mad
  let rms1 := if rms ≤ 0 then (if 0 < clipped.length then stdQ clipped else 1) else rms
  if rms1 ≤ 0 then 1 else rms1

/-- Model of `sigma_clipped_stats(arr, sigma, maxiters)`: flatten, drop
non-finite samples, return `(0, 1)` when nothing remains, otherwise clip
iteratively and return the clipped median and the fallback-chained rms. -/
def sigma_clipped_stats (arr : PixelGrid) (sigma : ℚ) (maxiters : Nat) : ℚ × ℚ :=
  let values := arr.filterMap id
  if values.length = 0 then (0, 1)
  else
    let clipped := clipLoop sigma maxiters values
    (median clipped, finalRms clipped)

/-- Result of `normalize_cutouts`: the processed frames and the shared
display bounds. -/
structure NormalizedBatch where
  frames : List PixelGrid
  vmin : ℚ
  vmax : ℚ
deriving Repr, DecidableEq

/-- The per-frame step of `normalize_cutouts` (lines 113-121): a
floating-point copy, then optional background subtraction and noise
division.  Arithmetic on a non-finite sample yields a non-finite sample,
as in IEEE floats. -/
def perFrame (match_background match_noise : Bool) (arr : PixelGrid) : PixelGrid :=
  if match_background || match_noise then
    let s := sigma_clipped_stats arr 3 5
    let arr1 := if match_background then arr.map (Option.map fun x => x - s.1) else arr
    if match_noise then arr1.map (Option.map fun x => x / max s.2 eps12) else arr1
  else arr

/-- Model of `np.percentile(l, q)` with the default linear interpolation. -/
def percentile (l : List ℚ) (q : ℚ) : ℚ :=
  let s := List.insertionSort (· ≤ ·) l
  let n := l.length
  if n = 0 then 0
  else
    let h := q * ((n : ℚ) - 1) / 100
    let i := (Int.floor h).toNat
    let lo := s.getD i 0
    let hi := s.getD (min (i + 1) (n - 1)) 0
    lo + (h - (i : ℚ)) * (hi - lo)

/-- The pooled finite samples of the processed frames (line 124 of the
source): every finite sample of every processed frame, concatenated. -/
def pooledFinite (match_background match_noise : Bool)
    (cutout_arrays : List PixelGrid) : List ℚ :=
  ((cutout_arrays.map (perFrame match_background match_noise)).map
    (·.filterMap id)).flatten

/-- Model of `normalize_cutouts(cutout_arrays, match_background,
match_noise)`: process each frame in order, pool the finite samples
(`np.concatenate` raises `ValueError` on an empty list of arrays, i.e. on
empty input), default the display range to `(0, 1)` when the pool is
empty, otherwise take the 1st/99th percentiles with the epsilon nudge. -/
def normalize_cutouts (cutout_arrays : List PixelGrid)
    (match_background match_noise : Bool) : Except String NormalizedBatch :=
  let processed := cutout_arrays.map (perFrame match_background match_noise)
  if processed.length = 0 then
    Except.error ("need at least one array to concatenate")
  else
    let all_finite := pooledFinite match_background match_noise cutout_arrays
    if all_finite.length = 0 then Except.ok ⟨processed, 0, 1⟩
    else
      let vmin := percentile all_finite 1
      let vmax := percentile all_finite 99
      let vmax := if vmax ≤ vmin then vmin + eps12 else vmax
      Except.ok ⟨processed, vmin, vmax⟩

/-- The animated artifact of `create_gif`: ordered frames (identified by
their PNG file names), a uniform per-frame duration, and the loop count. -/
structure Animation where
  frames : List String
  duration : Nat
  loop : Nat
deriving Repr, DecidableEq

/-- Model of `create_gif(png_dir, output_path, duration)` from the point
where the directory scan returned `png_files`: sort by filename, raise
`ValueError` when none were found, otherwise assemble all frames (the
first plus `frames[1:]` appended) with the given uniform duration and
infinite loop (`loop=0`). -/
def create_gif (png_files : List String) (duration : Nat) : Except String Animation :=
  let sorted := List.insertionSort (· ≤ ·) png_files
  if sorted = [] then Except.error ("No PNG files found")
  else Except.ok ⟨sorted, duration, 0⟩

end Neandertools

namespace Neandertools

/-! ### Helper lemmas -/

theorem filterMap_id_nil {arr : PixelGrid} (h : ∀ x ∈ arr, x = none) :
    arr.filterMap id = [] := by
  induction arr with
  | nil => rfl
  | cons a t ih =>
    have ha := h a (by simp)
    subst ha
    simpa using ih fun x hx => h x (by simp [hx])

theorem keepSet_sublist (sigma : ℚ) (l : List ℚ) : List.Sublist (keepSet sigma l) l :=
  List.filter_sublist l

theorem clipLoop_sublist (sigma : ℚ) (n : Nat) (l : List ℚ) :
    List.Sublist (clipLoop sigma n l) l := by
  induction n generalizing l with
  | zero => exact List.Sublist.refl l
  | succ n ih =>
    simp only [clipLoop]
    split
    · exact List.Sublist.refl l
    · split
      · exact List.Sublist.refl l
      · exact (ih _).trans (keepSet_sublist sigma l)

theorem pos_of_guard (x : ℚ) : 0 < if x ≤ 0 then (1 : ℚ) else x := by
  split
  · norm_num
  · next h => exact lt_of_not_le h

theorem finalRms_pos (clipped : List ℚ) : 0 < finalRms clipped := by
  unfold finalRms
  exact pos_of_guard _

theorem sort_const {l : List ℚ} {c : ℚ} (h : ∀ x ∈ l, x = c) :
    List.insertionSort (· ≤ ·) l = List.replicate l.length c := by
  have hp := List.perm_insertionSort (· ≤ ·) l
  have hmem : ∀ x ∈ List.insertionSort (· ≤ ·) l, x = c := fun x hx =>
    h x (hp.mem_iff.mp hx)
  calc List.insertionSort (· ≤ ·) l
      = List.replicate (List.insertionSort (· ≤ ·) l).length c :=
        List.eq_replicate_length.mpr hmem
    _ = List.replicate l.length c := by rw [List.length_insertionSort]

theorem getD_replicate {n i : Nat} {c d : ℚ} (h : i < n) :
    (List.replicate n c).getD i d = c := by
  simp [List.getD_eq_getElem?_getD, List.getElem?_replicate, h]

theorem median_const {l : List ℚ} {c : ℚ} (h0 : l ≠ []) (h : ∀ x ∈ l, x = c) :
    median l = c := by
  have hn : l.length ≠ 0 := by simpa using h0
  have hpos : 0 < l.length := Nat.pos_of_ne_zero hn
  have hlt : l.length / 2 < l.length := Nat.div_lt_self hpos one_lt_two
  have hlt' : l.length / 2 - 1 < l.length :=
    lt_of_le_of_lt (Nat.sub_le _ _) hlt
  simp only [median, sort_const h, if_neg hn]
  by_cases hodd : l.length % 2 = 1
  · rw [if_pos hodd, getD_replicate hlt]
  · rw [if_neg hodd, getD_replicate hlt, getD_replicate hlt']
    ring

theorem sum_const {l : List ℚ} {c : ℚ} (h : ∀ x ∈ l, x = c) :
    l.sum = (l.length : ℚ) * c := by
  induction l with
  | nil => simp
  | cons a t ih =>
    have ha := h a (by simp)
    subst ha
    rw [List.sum_cons, ih fun x hx => h x (by simp [hx]), List.length_cons]
    push_cast
    ring

theorem listMean_const {l : List ℚ} {c : ℚ} (h0 : l ≠ []) (h : ∀ x ∈ l, x = c) :
    listMean l = c := by
  have hn : (l.length : ℚ) ≠ 0 :=
    (Nat.cast_pos.mpr (List.length_pos.mpr h0)).ne'
  rw [listMean, sum_const h, mul_comm, mul_div_assoc, div_self hn, mul_one]

theorem listVar_const {l : List ℚ} {c : ℚ} (h0 : l ≠ []) (h : ∀ x ∈ l, x = c) :
    listVar l = 0 := by
  have hz : ∀ y ∈ l.map fun x => (x - listMean l) ^ 2, y = 0 := by
    intro y hy
    obtain ⟨x, hx, rfl⟩ := List.mem_map.mp hy
    rw [h x hx, listMean_const h0 h]
    ring
  rw [listVar, sum_const hz, mul_zero, zero_div]

theorem stdQ_const {l : List ℚ} {c : ℚ} (h0 : l ≠ []) (h : ∀ x ∈ l, x = c) :
    stdQ l = 0 := by
  rw [stdQ, listVar_const h0 h, sqrtQ, if_pos le_rfl]

theorem mad_const {l : List ℚ} {c : ℚ} (h0 : l ≠ []) (h : ∀ x ∈ l, x = c) :
    median (l.map fun x => |x - median l|) = 0 := by
  have habs : ∀ y ∈ l.map fun x => |x - median l|, y = 0 := by
    intro y hy
    obtain ⟨x, hx, rfl⟩ := List.mem_map.mp hy
    rw [h x hx, median_const h0 h]
    simp
  have hne : l.map (fun x => |x - median l|) ≠ [] := by
    simpa using h0
  exact median_const hne habs

theorem clipLoop_const {l : List ℚ} {c : ℚ} (sigma : ℚ) (n : Nat)
    (h0 : l ≠ []) (h : ∀ x ∈ l, x = c) : clipLoop sigma n l = l := by
  cases n with
  | zero => rfl
  | succ n =>
    simp only [clipLoop]
    rw [mad_const h0 h, mul_zero, if_pos le_rfl]

theorem finalRms_const {l : List ℚ} {c : ℚ} (h0 : l ≠ []) (h : ∀ x ∈ l, x = c) :
    finalRms l = 1 := by
  have hlen : 0 < l.length := List.length_pos.mpr h0
  simp only [finalRms]
  rw [mad_const h0 h, mul_zero, if_pos le_rfl, if_pos hlen, stdQ_const h0 h,
    if_pos le_rfl]

end Neandertools

namespace Neandertools

/-! ### Claim theorems -/

/-- C1: for every pixel grid containing at least one finite sample, and for
every sigma and max-iteration count, `sigma_clipped_stats` returns a noise
value strictly greater than zero, via the three-level fallback chain; the
background (first component) is a rational and hence finite in the exact
model. -/
theorem sigma_clipped_stats_noise_pos (arr : PixelGrid) (sigma : ℚ) (maxiters : Nat)
    (h : arr.filterMap id ≠ []) :
    0 < (sigma_clipped_stats arr sigma maxiters).2 := by
  have hlen : (arr.filterMap id).length ≠ 0 := by simpa using h
  simp only [sigma_clipped_stats, if_neg hlen]
  exact finalRms_pos _

/-- Witness for C1 at the grid `[0, 1, 2]`. -/
theorem sigma_clipped_stats_noise_pos_witness :
    List.filterMap id [some (0 : ℚ), some 1, some 2] ≠ [] ∧
      0 < (sigma_clipped_stats [some 0, some 1, some 2] 3 5).2 :=
  ⟨by decide, sigma_clipped_stats_noise_pos [some 0, some 1, some 2] 3 5 (by decide)⟩

/-- C3: for every pixel grid whose samples are all non-finite (including
the empty grid), `sigma_clipped_stats` returns exactly `(0, 1)` and raises
no error. -/
theorem sigma_clipped_stats_all_nonfinite (arr : PixelGrid) (sigma : ℚ) (maxiters : Nat)
    (h : ∀ x ∈ arr, x = none) :
    sigma_clipped_stats arr sigma maxiters = (0, 1) := by
  simp [sigma_clipped_stats, filterMap_id_nil h]

/-- Witness for C3 at the all-non-finite grid `[none, none]`. -/
theorem sigma_clipped_stats_all_nonfinite_witness :
    (∀ x ∈ ([none, none] : PixelGrid), x = none) ∧
      sigma_clipped_stats [none, none] 3 5 = (0, 1) :=
  ⟨by decide, sigma_clipped_stats_all_nonfinite [none, none] 3 5 (by decide)⟩

/-- C6: the clipping working set is monotonically non-expanding — after any
number of iterations it is a sublist (hence a subset, and never larger) of
the input working set — and each iteration either stops or continues with
exactly the samples within `sigma * rms` of the current median
(`keepSet`). -/
theorem clipLoop_monotone (sigma : ℚ) (n : Nat) (l : List ℚ) :
    List.Sublist (clipLoop sigma n l) l ∧
      (clipLoop sigma n l).length ≤ l.length ∧
      (clipLoop sigma (n + 1) l = l ∨
        clipLoop sigma (n + 1) l = clipLoop sigma n (keepSet sigma l)) := by
  refine ⟨clipLoop_sublist sigma n l, (clipLoop_sublist sigma n l).length_le, ?_⟩
  simp only [clipLoop]
  split
  · exact Or.inl rfl
  · split
    · exact Or.inl rfl
    · exact Or.inr rfl

/-- C7: calling `normalize_cutouts` on an empty sequence of grids fails
with an error surfaced to the caller (the `ValueError` that
`np.concatenate` raises on an empty list of arrays) rather than returning
a defaulted result. -/
theorem normalize_cutouts_empty_error (b n : Bool) :
    ∃ e, normalize_cutouts [] b n = Except.error e :=
  ⟨_, rfl⟩

/-- C10: for every grid whose finite samples all equal a single constant
`c` (and at least one finite sample exists), `sigma_clipped_stats` returns
background `c` and noise `1`: the MAD is zero, so clipping stops at once,
the MAD-based rms and the standard-deviation fallback are both zero, and
the final fallback `1.0` is taken. -/
theorem sigma_clipped_stats_const (arr : PixelGrid) (c sigma : ℚ) (maxiters : Nat)
    (h0 : arr.filterMap id ≠ []) (h : ∀ x ∈ arr.filterMap id, x = c) :
    sigma_clipped_stats arr sigma maxiters = (c, 1) := by
  have hlen : (arr.filterMap id).length ≠ 0 := by simpa using h0
  simp only [sigma_clipped_stats, if_neg hlen]
  rw [clipLoop_const sigma maxiters h0 h, median_const h0 h, finalRms_const h0 h]

/-- Witness for C10 at the constant grid `[7, NaN, 7]`. -/
theorem sigma_clipped_stats_const_witness :
    List.filterMap id [some (7 : ℚ), none, some 7] ≠ [] ∧
      (∀ x ∈ List.filterMap id [some (7 : ℚ), none, some 7], x = (7 : ℚ)) ∧
      sigma_clipped_stats [some 7, none, some 7] 3 5 = (7, 1) :=
  ⟨by decide, by decide,
    sigma_clipped_stats_const [some 7, none, some 7] 7 3 5 (by decide) (by decide)⟩

end Neandertools

namespace Neandertools

theorem map_option_all_none {l : PixelGrid} (f : ℚ → ℚ) (h : ∀ x ∈ l, x = none) :
    ∀ x ∈ l.map (Option.map f), x = none := by
  intro x hx
  obtain ⟨y, hy, rfl⟩ := List.mem_map.mp hx
  rw [h y hy]
  rfl

theorem ite_all_none {l1 l2 : PixelGrid} (c : Prop) [Decidable c]
    (h1 : ∀ x ∈ l1, x = none) (h2 : ∀ x ∈ l2, x = none) :
    ∀ x ∈ (if c then l1 else l2), x = none := by
  split
  · exact h1
  · exact h2

theorem perFrame_all_none {arr : PixelGrid} (b n : Bool) (h : ∀ x ∈ arr, x = none) :
    ∀ x ∈ perFrame b n arr, x = none := by
  unfold perFrame
  split
  · exact ite_all_none _
      (map_option_all_none _ (ite_all_none _ (map_option_all_none _ h) h))
      (ite_all_none _ (map_option_all_none _ h) h)
  · exact h

theorem pooledFinite_all_none {gs : List PixelGrid} (b n : Bool)
    (h : ∀ g ∈ gs, ∀ x ∈ g, x = none) : pooledFinite b n gs = [] := by
  unfold pooledFinite
  induction gs with
  | nil => rfl
  | cons g t ih =>
    simp only [List.map_cons, List.flatten_cons]
    rw [filterMap_id_nil (perFrame_all_none b n (h g (by simp)))]
    simpa using ih fun g' hg' => h g' (by simp [hg'])

/-- C2: for every non-empty batch of grids, `normalize_cutouts` succeeds
and its display bounds satisfy `vmin < vmax` strictly; and when the
computed 99th percentile of the pooled finite samples is at most the 1st
percentile, the upper bound is exactly the lower bound nudged apart by the
fixed epsilon `1e-12`. -/
theorem normalize_cutouts_display_bounds (gs : List PixelGrid) (b n : Bool)
    (h : gs ≠ []) :
    ∃ r, normalize_cutouts gs b n = Except.ok r ∧ r.vmin < r.vmax ∧
      (pooledFinite b n gs ≠ [] →
        percentile (pooledFinite b n gs) 99 ≤ percentile (pooledFinite b n gs) 1 →
        r.vmax = r.vmin + eps12) := by
  have hlen : (gs.map (perFrame b n)).length ≠ 0 := by simpa using h
  simp only [normalize_cutouts, if_neg hlen]
  by_cases hp : (pooledFinite b n gs).length = 0
  · rw [if_pos hp]
    exact ⟨_, rfl, by norm_num, fun hne _ => absurd (List.length_eq_zero.mp hp) hne⟩
  · rw [if_neg hp]
    refine ⟨_, rfl, ?_, ?_⟩
    · dsimp only
      split
      · have he : (0 : ℚ) < eps12 := by norm_num [eps12]
        linarith
      · next hle => exact lt_of_not_le hle
    · intro _ hle
      dsimp only
      rw [if_pos hle]

/-- Witness for C2 at the single-frame batch `[[5]]` with both flags off,
where the two percentiles coincide and the epsilon nudge fires. -/
theorem normalize_cutouts_display_bounds_witness :
    ([[some (5 : ℚ)]] : List PixelGrid) ≠ [] ∧
      pooledFinite false false [[some (5 : ℚ)]] ≠ [] ∧
      percentile (pooledFinite false false [[some (5 : ℚ)]]) 99 ≤
        percentile (pooledFinite false false [[some (5 : ℚ)]]) 1 ∧
      (∃ r, normalize_cutouts [[some (5 : ℚ)]] false false = Except.ok r ∧
        r.vmin < r.vmax ∧
        (pooledFinite false false [[some (5 : ℚ)]] ≠ [] →
          percentile (pooledFinite false false [[some (5 : ℚ)]]) 99 ≤
            percentile (pooledFinite false false [[some (5 : ℚ)]]) 1 →
          r.vmax = r.vmin + eps12)) :=
  ⟨by decide, by decide,
    by norm_num [percentile, pooledFinite, perFrame, List.filterMap_cons, id_eq,
      List.insertionSort, List.orderedInsert],
    normalize_cutouts_display_bounds [[some (5 : ℚ)]] false false (by decide)⟩

/-- C4: whenever `normalize_cutouts` is called on a non-empty list of
grids, with any flag combination, it returns exactly one output frame per
input grid, and the i-th output frame is computed from the i-th input grid
(the output list is the elementwise map of the per-frame step, so no
reordering occurs). -/
theorem normalize_cutouts_frames (gs : List PixelGrid) (b n : Bool) (h : gs ≠ []) :
    ∃ r, normalize_cutouts gs b n = Except.ok r ∧
      r.frames = gs.map (perFrame b n) ∧ r.frames.length = gs.length := by
  have hlen : (gs.map (perFrame b n)).length ≠ 0 := by simpa using h
  simp only [normalize_cutouts, if_neg hlen]
  by_cases hp : (pooledFinite b n gs).length = 0
  · rw [if_pos hp]
    exact ⟨_, rfl, rfl, by simp⟩
  · rw [if_neg hp]
    exact ⟨_, rfl, rfl, by simp⟩

/-- Witness for C4 at a two-frame batch with background matching on. -/
theorem normalize_cutouts_frames_witness :
    ([[some (1 : ℚ)], [none, some 2]] : List PixelGrid) ≠ [] ∧
      (∃ r, normalize_cutouts [[some (1 : ℚ)], [none, some 2]] true false = Except.ok r ∧
        r.frames = ([[some (1 : ℚ)], [none, some 2]] : List PixelGrid).map (perFrame true false) ∧
        r.frames.length = 2) :=
  ⟨by decide, normalize_cutouts_frames [[some (1 : ℚ)], [none, some 2]] true false (by decide)⟩

/-- C8: with `match_background = false` and `match_noise = false`, every
frame passes through unmodified (only the floating-point copy is made, the
identity in the exact model): on any non-empty batch `normalize_cutouts`
succeeds and returns the input grids themselves as frames. -/
theorem normalize_cutouts_passthrough (gs : List PixelGrid) (h : gs ≠ []) :
    ∃ vmin vmax, normalize_cutouts gs false false = Except.ok ⟨gs, vmin, vmax⟩ := by
  have hmap : gs.map (perFrame false false) = gs := by
    have hfun : perFrame false false = id := funext fun arr => rfl
    rw [hfun, List.map_id]
  have hlen : gs.length ≠ 0 := by simpa using h
  simp only [normalize_cutouts, hmap]
  rw [if_neg hlen]
  by_cases hp : (pooledFinite false false gs).length = 0
  · rw [if_pos hp]
    exact ⟨0, 1, rfl⟩
  · rw [if_neg hp]
    exact ⟨_, _, rfl⟩

/-- Witness for C8 at the batch `[[1, NaN]]`. -/
theorem normalize_cutouts_passthrough_witness :
    ([[some (1 : ℚ), none]] : List PixelGrid) ≠ [] ∧
      ∃ vmin vmax, normalize_cutouts [[some (1 : ℚ), none]] false false =
        Except.ok ⟨[[some (1 : ℚ), none]], vmin, vmax⟩ :=
  ⟨by decide, normalize_cutouts_passthrough [[some (1 : ℚ), none]] (by decide)⟩

/-- C9: for every non-empty batch in which every sample of every grid is
non-finite, `normalize_cutouts` succeeds (raises no error) and returns the
safe default display bounds `vmin = 0` and `vmax = 1`. -/
theorem normalize_cutouts_all_nonfinite (gs : List PixelGrid) (b n : Bool)
    (h : gs ≠ []) (hall : ∀ g ∈ gs, ∀ x ∈ g, x = none) :
    normalize_cutouts gs b n = Except.ok ⟨gs.map (perFrame b n), 0, 1⟩ := by
  have hlen : (gs.map (perFrame b n)).length ≠ 0 := by simpa using h
  have hp : (pooledFinite b n gs).length = 0 := by
    rw [pooledFinite_all_none b n hall]
    rfl
  simp only [normalize_cutouts, if_neg hlen, if_pos hp]

/-- Witness for C9 at the all-non-finite batch `[[NaN, NaN], [NaN]]` with
both flags on. -/
theorem normalize_cutouts_all_nonfinite_witness :
    ([[none, none], [none]] : List PixelGrid) ≠ [] ∧
      (∀ g ∈ ([[none, none], [none]] : List PixelGrid), ∀ x ∈ g, x = none) ∧
      normalize_cutouts [[none, none], [none]] true true =
        Except.ok ⟨([[none, none], [none]] : List PixelGrid).map (perFrame true true), 0, 1⟩ :=
  ⟨by decide, by decide,
    normalize_cutouts_all_nonfinite [[none, none], [none]] true true (by decide) (by decide)⟩

/-- C5: `create_gif` fails with the empty-sequence error exactly when the
input frame list is empty, and every successful assembly produces an
animation whose frame count equals the number of input frames. -/
theorem create_gif_empty_iff (fs : List String) (d : Nat) :
    ((∃ e, create_gif fs d = Except.error e) ↔ fs = []) ∧
      ∀ a, create_gif fs d = Except.ok a → a.frames.length = fs.length := by
  by_cases hs : List.insertionSort (· ≤ ·) fs = []
  · have hfs : fs = [] := by
      have hl := List.length_insertionSort (· ≤ ·) fs
      rw [hs] at hl
      exact List.length_eq_zero.mp hl.symm
    simp only [create_gif, if_pos hs]
    refine ⟨⟨fun _ => hfs, fun _ => ⟨_, rfl⟩⟩, ?_⟩
    intro a ha
    exact Except.noConfusion ha
  · have hfs : fs ≠ [] := fun hnil => hs (by rw [hnil]; rfl)
    simp only [create_gif, if_neg hs]
    refine ⟨⟨?_, fun hnil => absurd hnil hfs⟩, ?_⟩
    · rintro ⟨e, he⟩
      exact Except.noConfusion he
    · intro a ha
      injection ha with ha'
      subst ha'
      show (List.insertionSort (· ≤ ·) fs).length = fs.length
      rw [List.length_insertionSort]

/-- Witness for C5: the empty directory fails, and a concrete one-frame
assembly has frame count one. -/
theorem create_gif_empty_iff_witness :
    (∃ e, create_gif [] 500 = Except.error e) ∧
      (Animation.frames ⟨["a.png"], 500, 0⟩).length = 1 :=
  ⟨(create_gif_empty_iff [] 500).1.mpr rfl,
    (create_gif_empty_iff ["a.png"] 500).2 ⟨["a.png"], 500, 0⟩ rfl⟩

end Neandertools
